import Mathlib

/-!
Verification of the Scribe work-distribution backend.

The definitions below are a shallow embedding of the Python sources:
  * `backend/routers/annotation.py` (lease scan, candidate selection,
    lease write, skip, submit),
  * `backend/routers/dataset.py` (queue construction, filter clearing),
  * `backend/database.py` (offset index build and fetch),
  * `backend/config.py` (the lease TTL constant).
The repository also retains a legacy monolithic `backend/main.py` with older
variants of some endpoints; the claims cite the router files, which are the
refactored implementation, so those are embedded here and divergences of the
legacy file are noted in comments.

Remote spreadsheet ("ledger") contents are modelled as a grid of strings
`List (List String)` whose first row is the header row, exactly what
`worksheet.get_all_values()` returns.  Remote calls that can raise are
modelled by explicit failure flags passed to the functions that perform them.
Wall-clock time and timestamp parsing (`datetime.strptime` with a `float`
fallback, which depends on the host timezone) are modelled by an integer
`now` and an abstract parse function `parseTs : String → Option Int`; the
code only ever uses the parse result.
-/

namespace Scribe

/-- `backend/config.py` line 17: `LOCK_TIMEOUT_SECONDS = 7200  # 2 hours`. -/
def LOCK_TIMEOUT_SECONDS : Int := 7200

/-! ### Association-list and grid helpers

Python dicts are modelled as association lists used only through `lookupA`;
`setA`/`removeA` model item assignment and `del`.  Spreadsheet cell reads of
absent cells yield the empty string, like gspread's empty-cell values. -/

def lookupA {α : Type} (k : String) : List (String × α) → Option α
  | [] => none
  | (k', v) :: rest => if k' = k then some v else lookupA k rest

def removeA {α : Type} (k : String) : List (String × α) → List (String × α)
  | [] => []
  | (k', v) :: rest => if k' = k then removeA k rest else (k', v) :: removeA k rest

def setA {α : Type} (k : String) (v : α) (m : List (String × α)) : List (String × α) :=
  (k, v) :: removeA k m

def containsS (l : List String) (a : String) : Bool :=
  match l with
  | [] => false
  | b :: bs => if b = a then true else containsS bs a

/-- `headers.index(name)` returning `none` instead of raising `ValueError`. -/
def idxOf? (l : List String) (a : String) : Option Nat :=
  match l with
  | [] => none
  | b :: bs => if b = a then some 0 else (idxOf? bs a).map (· + 1)

/-- Replace the element at position `n` (0-based), if any. -/
def modifyNthL {α : Type} (f : α → α) : Nat → List α → List α
  | _, [] => []
  | 0, a :: as => f a :: as
  | n + 1, a :: as => a :: modifyNthL f n as

/-- Write value `v` into column `c` (0-based) of a spreadsheet row, padding
with empty cells when the row is shorter, as `update_cell` does. -/
def setInRow : List String → Nat → String → List String
  | [], 0, v => [v]
  | [], n + 1, v => "" :: setInRow [] n v
  | _ :: rest, 0, v => v :: rest
  | a :: rest, n + 1, v => a :: setInRow rest n v

/-- `worksheet.update_cell(r, c+1, v)` on the grid, `r` 0-based here. -/
def setCell0 (grid : List (List String)) (r c : Nat) (v : String) :
    List (List String) :=
  modifyNthL (fun row => setInRow row c v) r grid

/-- `worksheet.update(f'A{r}', [vals])`: overwrite the first `vals.length`
cells of row `r` (0-based here), keeping any cells beyond them. -/
def setRow (grid : List (List String)) (r : Nat) (vals : List String) :
    List (List String) :=
  modifyNthL (fun old => vals ++ old.drop vals.length) r grid

/-- 0-based index of the first row satisfying `p`. -/
def findRowIdx (p : List String → Bool) : List (List String) → Option Nat
  | [] => none
  | row :: rest => if p row then some 0 else (findRowIdx p rest).map (· + 1)

/-- `worksheet.find(value, in_column=col+1)`: 1-based row of the first cell
in the column (header row included) equal to `value`. -/
def findCellRow (grid : List (List String)) (col : Nat) (value : String) :
    Option Nat :=
  (findRowIdx (fun row => row.getD col "" == value) grid).map (· + 1)

/-- Cell read with gspread's empty-cell default. -/
def cellAt (g : List (List String)) (r c : Nat) : String :=
  (g.getD r []).getD c ""

/-- Python's `str.strip()`: drop whitespace from both ends. -/
def pyStrip (s : String) : String :=
  ⟨((s.data.dropWhile Char.isWhitespace).reverse.dropWhile
      Char.isWhitespace).reverse⟩

/-! ### Data model of the in-process state (`backend/app_state.py`) -/

/-- A lightweight queue entry, one row of the `papers_index` listing
(`doi, title, open_access_pdf`); `open_access_pdf` may be SQL NULL. -/
structure PaperInfo where
  doi : String
  title : String
  openAccessPdf : Option String
deriving Repr, DecidableEq

/-- The full record fetched from the corpus file for a selected key
(`get_paper_by_doi_from_file`); only the fields `get_next_paper` reads. -/
structure FullPaper where
  doi : String
  title : String
deriving Repr, DecidableEq

/-- Partial annotation payload (`INCOMPLETE_ANNOTATIONS[doi]['data']`). -/
abbrev AnnData := List (String × String)

structure IncompleteEntry where
  data : AnnData
deriving Repr, DecidableEq

/-- One cached filter: `{"query": ..., "dois": [...]}`. -/
structure FilterEntry where
  query : String
  dois : List String
deriving Repr, DecidableEq

/-- `app_state.state`, restricted to the fields the embedded endpoints use.
`worksheet` is the connected ledger grid (`None` when not connected);
`AVAILABLE_DATASETS` keeps only the dataset names (the paths are consumed
solely by the abstracted corpus fetch). -/
structure AppStateM where
  worksheet : Option (List (List String))
  DATASET_QUEUES : List (String × List PaperInfo)
  ANNOTATED_ITEMS : List String
  INCOMPLETE_ANNOTATIONS : List (String × IncompleteEntry)
  ACTIVE_FILTERS : List (String × FilterEntry)
  AVAILABLE_DATASETS : List String
deriving Repr, DecidableEq

/-! ### `get_next_paper` (`backend/routers/annotation.py` lines 81-161) -/

def defaultHeaders : List String :=
  ["doi", "title", "dataset", "annotator", "lock_annotator", "lock_timestamp"]

/-- Lines 106-117: one ledger row's contribution to the unavailable set.
Returns the row's doi when the row holds a lease by someone other than
`annotator` (holder compared after `.strip()`) whose timestamp parses and is
younger than `LOCK_TIMEOUT_SECONDS`. -/
def rowMakesUnavailable (parseTs : String → Option Int) (now : Int)
    (annotator : String) (doiIdx laIdx ltIdx : Nat) (row : List String) :
    Option String :=
  if row.length > max doiIdx (max laIdx ltIdx) then
    let doi := row.getD doiIdx ""
    if doi ≠ "" ∧ pyStrip (row.getD laIdx "") ≠ annotator ∧ row.getD ltIdx "" ≠ "" then
      match parseTs (row.getD ltIdx "") with
      | some ts => if now - ts < LOCK_TIMEOUT_SECONDS then some doi else none
      | none => none
    else none
  else none

/-- The accumulator step of the ledger scan. -/
def scanStep (parseTs : String → Option Int) (now : Int) (annotator : String)
    (doiIdx laIdx ltIdx : Nat) (acc : List String) (row : List String) :
    List String :=
  match rowMakesUnavailable parseTs now annotator doiIdx laIdx ltIdx row with
  | some d => d :: acc
  | none => acc

/-- Lines 103-117: `unavailable_dois`, seeded with `ANNOTATED_ITEMS` and the
optional `skip_doi`, then extended by the live scan of the ledger rows. -/
def unavailableDois (parseTs : String → Option Int) (now : Int)
    (annotator : String) (annotated : List String) (skipDoi : Option String)
    (doiIdx laIdx ltIdx : Nat) (dataRows : List (List String)) : List String :=
  dataRows.foldl (scanStep parseTs now annotator doiIdx laIdx ltIdx)
    (match skipDoi with
     | some d => d :: annotated
     | none => annotated)

/-- Lines 122-128 loop body: the conditions a queue entry must survive. -/
def candidateOk (unavailable : List String) (filterDois : Option (List String))
    (pdfRequired : Bool) (p : PaperInfo) : Bool :=
  !(containsS unavailable p.doi) &&
  (match filterDois with
   | some fd => containsS fd p.doi
   | none => true) &&
  (!pdfRequired || (p.openAccessPdf.getD "").startsWith "http")

/-- Lines 121-128: first-fit walk of the queue. -/
def selectCandidate (unavailable : List String)
    (filterDois : Option (List String)) (pdfRequired : Bool)
    (queue : List PaperInfo) : Option PaperInfo :=
  queue.find? (candidateOk unavailable filterDois pdfRequired)

/-- Lines 144-148: the appended placeholder row, one value per header. -/
def placeholderVal (doi title dataset annotator tsStr : String)
    (h : String) : String :=
  if h = "doi" then doi
  else if h = "title" then title
  else if h = "dataset" then dataset
  else if h = "lock_annotator" then annotator
  else if h = "lock_timestamp" then tsStr
  else ""

structure LockInfo where
  locked : Bool
  remainingSeconds : Int
deriving Repr, DecidableEq

/-- The value returned by a successful `get_next_paper`: the fetched record
plus the keys the endpoint attaches to it.  `selectedDoi` records which
queue key was selected (the doi the fetch was made for). -/
structure PaperResponse where
  selectedDoi : String
  paper : FullPaper
  lockInfo : Option LockInfo
  existingAnn : Option AnnData
deriving Repr, DecidableEq

inductive NextResult where
  | ok (resp : PaperResponse) (ledger : List (List String))
  | err (status : Nat) (detail : String)
deriving Repr, DecidableEq

/-- `GET /get-next-paper` (`backend/routers/annotation.py` lines 81-161).
`parseTs` abstracts the two-stage timestamp parse, `nowTsStr` the value of
`get_human_readable_timestamp()`, `fetchFull` the call
`get_paper_by_doi_from_file(state.AVAILABLE_DATASETS[dataset], ·)`, and
`leaseWriteFails` injects an exception in the lease-write block
(lines 138-149), which line 152-153 turns into a 500 error. -/
def get_next_paper (parseTs : String → Option Int) (now : Int)
    (nowTsStr : String) (fetchFull : String → Option FullPaper)
    (leaseWriteFails : Bool) (st : AppStateM) (dataset annotator : String)
    (pdfRequired : Bool) (skipDoi : Option String) : NextResult :=
  match st.worksheet with
  | none => .err 400 "No Google Sheet is currently connected."
  | some grid =>
    if annotator = "" ∨ annotator = "unknown" then
      .err 400 "Annotator name must be set in Settings."
    else
      match lookupA dataset st.DATASET_QUEUES with
      | none => .err 404 "Dataset queue is empty or not loaded."
      | some queue =>
        if queue = [] then .err 404 "Dataset queue is empty or not loaded."
        else
          let headers0 := grid.headD []
          let headers := if headers0 = [] then defaultHeaders else headers0
          let grid1 := if headers0 = [] then defaultHeaders :: grid.tail else grid
          match idxOf? headers "doi", idxOf? headers "lock_annotator",
              idxOf? headers "lock_timestamp" with
          | some doiIdx, some laIdx, some ltIdx =>
            let unavailable := unavailableDois parseTs now annotator
              st.ANNOTATED_ITEMS skipDoi doiIdx laIdx ltIdx grid1.tail
            let filterDois :=
              (lookupA dataset st.ACTIVE_FILTERS).map FilterEntry.dois
            match selectCandidate unavailable filterDois pdfRequired queue with
            | none => .err 404 "No available papers found in the queue."
            | some cand =>
              match fetchFull cand.doi with
              | none => .err 500 "Could not retrieve full data for DOI."
              | some ful =>
                if leaseWriteFails then
                  .err 500 "Could not acquire lock for paper in Google Sheet."
                else
                  let grid2 :=
                    match findCellRow grid1 doiIdx cand.doi with
                    | some r =>
                      setCell0 (setCell0 grid1 (r - 1) laIdx annotator)
                        (r - 1) ltIdx nowTsStr
                    | none =>
                      grid1 ++ [headers.map
                        (placeholderVal cand.doi ful.title dataset annotator nowTsStr)]
                  .ok { selectedDoi := cand.doi
                        paper := ful
                        lockInfo := some { locked := true,
                                           remainingSeconds := LOCK_TIMEOUT_SECONDS }
                        existingAnn :=
                          (lookupA cand.doi st.INCOMPLETE_ANNOTATIONS).map
                            IncompleteEntry.data }
                    grid2
          | _, _, _ => .err 500 "A spreadsheet error occurred."

/-! ### `clear_lock` and `skip_paper` (`backend/routers/annotation.py`
lines 19-38 and 264-291) -/

/-- `clear_lock(doi)` (lines 19-38): find the row by doi and blank the two
lock cells; any failure (missing column, doi not found) leaves the grid
unchanged, mirroring the swallowed exceptions. -/
def clear_lock (grid : List (List String)) (doi : String) :
    List (List String) :=
  let headers := grid.headD []
  match idxOf? headers "doi" with
  | none => grid
  | some di =>
    match findCellRow grid di doi with
    | none => grid
    | some r =>
      match idxOf? headers "lock_annotator", idxOf? headers "lock_timestamp" with
      | some la, some lt => setCell0 (setCell0 grid (r - 1) la "") (r - 1) lt ""
      | _, _ => grid

/-- First queue entry with the given doi is moved to the tail (lines
284-289); when no entry matches, the queue is unchanged. -/
def moveToTail (key : String) : List PaperInfo → List PaperInfo
  | [] => []
  | p :: ps => if p.doi = key then ps ++ [p] else p :: moveToTail key ps

inductive SkipResult where
  | ok (skippedDoi : String)
  | err (status : Nat) (detail : String)
deriving Repr, DecidableEq

/-- `POST /skip-paper` (lines 264-291).  The sheet half (lines 268-282):
if the found row's `annotator` cell is blank the row is deleted, otherwise
`clear_lock` runs; exceptions there are swallowed.  The queue half
(lines 284-289) moves the entry to the tail. -/
def skip_paper (st : AppStateM) (dataset doi : String) :
    SkipResult × AppStateM :=
  match st.worksheet with
  | none => (.err 400 "No Google Sheet is currently connected.", st)
  | some grid =>
    let headers := grid.headD []
    let grid1 :=
      match idxOf? headers "doi", idxOf? headers "annotator" with
      | some di, some ai =>
        match findCellRow grid di doi with
        | some r =>
          let annVal := (grid.getD (r - 1) []).getD ai ""
          if pyStrip annVal = "" then grid.eraseIdx (r - 1)
          else clear_lock grid doi
        | none => grid
      | _, _ => grid
    let queues :=
      match lookupA dataset st.DATASET_QUEUES with
      | some q =>
        if q = [] then st.DATASET_QUEUES
        else setA dataset (moveToTail doi q) st.DATASET_QUEUES
      | none => st.DATASET_QUEUES
    (.ok doi, { st with worksheet := some grid1, DATASET_QUEUES := queues })

/-! ### `submit_annotation` (`backend/routers/annotation.py` lines 163-233) -/

structure Submission where
  doi : String
  title : String
  dataset : String
  annotator : String
  annotations : List (String × String)
deriving Repr, DecidableEq

inductive SubmitResult where
  | ok (doi : String)
  | err (status : Nat) (detail : String)
deriving Repr, DecidableEq

def baseHeaders : List String := ["doi", "title", "dataset", "annotator"]

/-- `flat_submission.get(h, "")` where `flat_submission` is the base fields
merged with (and overridden by) the submission's annotation dict. -/
def flatGet (s : Submission) (h : String) : String :=
  match lookupA h s.annotations with
  | some v => v
  | none =>
    if h = "doi" then s.doi
    else if h = "title" then s.title
    else if h = "dataset" then s.dataset
    else if h = "annotator" then s.annotator
    else ""

/-- Keys of `flat_submission` in dict order: the four base fields, then the
annotation keys not shadowing a base field. -/
def flatKeys (s : Submission) : List String :=
  baseHeaders ++ (s.annotations.map Prod.fst).filter
    (fun h => !(containsS baseHeaders h))

/-- Lines 202-231: find the doi's row, write the merged row (update in place
or append), then `clear_lock`, queue removal, completed-set insert and
partial-map delete.  `rowWriteFails` injects an exception in the row write,
caught by the endpoint's outer handler (lines 232-233). -/
def submitWrite (rowWriteFails : Bool) (st : AppStateM) (s : Submission)
    (headers : List String) (grid : List (List String)) :
    SubmitResult × AppStateM :=
  let st1 := { st with worksheet := some grid }
  if rowWriteFails then (.err 500 "Failed to write to Google Sheet.", st1)
  else
    let cell :=
      match idxOf? headers "doi" with
      | none => none
      | some di => findCellRow grid di s.doi
    let rowValues := headers.map (flatGet s)
    let grid2 :=
      match cell with
      | some r => setRow grid (r - 1) rowValues
      | none => grid ++ [rowValues]
    let grid3 := clear_lock grid2 s.doi
    let queues :=
      match lookupA s.dataset st.DATASET_QUEUES with
      | some q => setA s.dataset (q.filter (fun p => p.doi ≠ s.doi))
          st.DATASET_QUEUES
      | none => st.DATASET_QUEUES
    let annotated :=
      if containsS st.ANNOTATED_ITEMS s.doi then st.ANNOTATED_ITEMS
      else s.doi :: st.ANNOTATED_ITEMS
    (.ok s.doi,
     { st with
        worksheet := some grid3
        DATASET_QUEUES := queues
        ANNOTATED_ITEMS := annotated
        INCOMPLETE_ANNOTATIONS := removeA s.doi st.INCOMPLETE_ANNOTATIONS })

/-- `POST /submit-annotation` (lines 163-233).  The header stage: when the
sheet has no header row one is built from the submission and written; when
the submission brings new field names the header row is extended and
rewritten.  `headerWriteFails` injects an exception in either `update('A1')`
call; both failures land in the outer handler leaving everything else
untouched. -/
def submitAnn (headerWriteFails rowWriteFails : Bool) (st : AppStateM)
    (s : Submission) : SubmitResult × AppStateM :=
  match st.worksheet with
  | none => (.err 400 "No Google Sheet is currently connected.", st)
  | some grid =>
    let headers0 := grid.headD []
    if headers0 = [] then
      if headerWriteFails then (.err 500 "Failed to write to Google Sheet.", st)
      else
        submitWrite rowWriteFails st s (flatKeys s) (flatKeys s :: grid.tail)
    else
      let extra := (flatKeys s).filter (fun h => !(containsS headers0 h))
      if extra = [] then submitWrite rowWriteFails st s headers0 grid
      else if headerWriteFails then
        (.err 500 "Failed to write to Google Sheet.", st)
      else
        submitWrite rowWriteFails st s (headers0 ++ extra)
          ((headers0 ++ extra) :: grid.tail)

/-! ### Offset index (`backend/database.py`)

The corpus file is a list of raw lines exactly as `f.readline()` returns
them (trailing newline included, hence every line before end of file is
nonempty); byte offsets are the cumulative lengths.  `json.loads` plus the
`.get` field accesses are abstracted into `parseLine : String → Option
PaperJson`, used identically by the build scan and by the fetch. -/

/-- The `open_access_pdf` value of a parsed record: absent (so `.get`
yields `{}`), a non-dict value used directly, or a dict carrying `url`. -/
inductive OAPdfVal where
  | missing
  | notDict (v : Option String)
  | dict (url : Option String)
deriving Repr, DecidableEq

/-- Lines 130-131 of `database.py`: the pdf url extracted from the field. -/
def pdfUrlOf : OAPdfVal → Option String
  | .missing => none
  | .notDict v => v
  | .dict u => u

/-- One parsed corpus record with the fields the indexer reads. -/
structure PaperJson where
  doi : Option String
  title : Option String
  abstract : Option String
  openAccessPdf : OAPdfVal
deriving Repr, DecidableEq

structure IndexRow where
  doi : String
  title : String
  openAccessPdf : Option String
  byteOffset : Nat
deriving Repr, DecidableEq

structure FtsRow where
  doi : String
  title : String
  abstract : String
deriving Repr, DecidableEq

/-- The three tables of one dataset's SQLite cache. -/
structure Db where
  papersIndex : List IndexRow
  doiOffsets : List (String × Nat)
  fts : List FtsRow
deriving Repr, DecidableEq

def emptyDb : Db := ⟨[], [], []⟩

structure BuildState where
  db : Db
  count : Nat
  duplicates : Nat
  skippedNoDoi : Nat
deriving Repr, DecidableEq

def containsKeyRows (rows : List IndexRow) (d : String) : Bool :=
  rows.any (fun r => r.doi == d)

def containsKeyOff (offs : List (String × Nat)) (d : String) : Bool :=
  offs.any (fun p => p.1 == d)

/-- Pair each line with the byte offset at which it starts. -/
def offsetsFrom (off : Nat) : List String → List (Nat × String)
  | [] => []
  | l :: ls => (off, l) :: offsetsFrom (off + l.length) ls

/-- The nonempty natural key of a parseable line (`doi` truthy), if any. -/
def lineKey (parseLine : String → Option PaperJson) (line : String) :
    Option String :=
  match parseLine line with
  | none => none
  | some p =>
    match p.doi with
    | none => none
    | some d => if d = "" then none else some d

/-- One iteration of the scan loop (`database.py` lines 113-158): skip
unparseable lines, count keyless records, `INSERT OR IGNORE` into
`papers_index` (a duplicate key only bumps the counter), and on a fresh key
also fill `doi_offsets` and the FTS table. -/
def buildStep (parseLine : String → Option PaperJson) (st : BuildState)
    (ol : Nat × String) : BuildState :=
  match parseLine ol.2 with
  | none => st
  | some p =>
    match p.doi with
    | none => { st with skippedNoDoi := st.skippedNoDoi + 1 }
    | some d =>
      if d = "" then { st with skippedNoDoi := st.skippedNoDoi + 1 }
      else if containsKeyRows st.db.papersIndex d then
        { st with duplicates := st.duplicates + 1 }
      else
        { st with
            db :=
              { papersIndex := st.db.papersIndex ++
                  [⟨d, p.title.getD "No Title", pdfUrlOf p.openAccessPdf, ol.1⟩]
                doiOffsets :=
                  if containsKeyOff st.db.doiOffsets d then st.db.doiOffsets
                  else st.db.doiOffsets ++ [(d, ol.1)]
                fts := st.db.fts ++
                  [⟨d, p.title.getD "No Title", p.abstract.getD ""⟩] }
            count := st.count + 1 }

/-- The full forward scan of the corpus starting from freshly emptied
tables (the `DELETE FROM` statements at lines 102-104). -/
def buildScan (parseLine : String → Option PaperJson) (file : List String) :
    BuildState :=
  (offsetsFrom 0 file).foldl (buildStep parseLine) ⟨emptyDb, 0, 0, 0⟩

/-- `f.seek(off); f.readline()` over the modelled file: the line (suffix)
starting at byte `off`, or `none` at or beyond end of file. -/
def readlineAt : List String → Nat → Option String
  | [], _ => none
  | l :: ls, off =>
    if off = 0 then some l
    else if off < l.length then some (l.drop off)
    else readlineAt ls (off - l.length)

/-- `get_paper_by_doi_from_file` (`database.py` lines 196-224): offset
lookup in `doi_offsets`, seek-and-readline, re-parse; every failure path
returns `None`. -/
def get_paper_by_doi_from_file (parseLine : String → Option PaperJson)
    (db : Db) (file : List String) (doi : String) : Option PaperJson :=
  match lookupA doi db.doiOffsets with
  | none => none
  | some off =>
    match readlineAt file off with
    | none => none
    | some line => parseLine line

/-! ### `index_dataset_if_needed` (`database.py` lines 75-172)

The staleness decision and the transaction.  A dataset's cache file is
`none` when absent, otherwise its tables plus its filesystem mtime.
`init_dataset_db` is committed separately: it keeps the two index tables
(`CREATE TABLE IF NOT EXISTS`) but drops and recreates the FTS table.  The
scan then runs inside one transaction that first empties all three tables;
`conn.rollback()` on an unexpected exception therefore restores the
post-init contents.  `failAt = some k` injects an unexpected exception
while processing line `k` (per-line JSON errors are caught separately and
are not failures). -/

structure DbFileState where
  contents : Db
  mtime : Int
deriving Repr, DecidableEq

/-- Lines 82-91: rebuild unless the cache file is newer than the dataset
and the index has at least one row. -/
def needsRebuild (dbFile : Option DbFileState) (datasetMtime : Int) : Bool :=
  match dbFile with
  | none => true
  | some d => !(decide (d.mtime > datasetMtime) && decide (d.contents.papersIndex.length > 0))

/-- The `papers_index` contents of a possibly-absent cache file. -/
def oldPapers : Option DbFileState → List IndexRow
  | some d => d.contents.papersIndex
  | none => []

/-- The `doi_offsets` contents of a possibly-absent cache file. -/
def oldOffs : Option DbFileState → List (String × Nat)
  | some d => d.contents.doiOffsets
  | none => []

def index_dataset_if_needed (parseLine : String → Option PaperJson)
    (dbFile : Option DbFileState) (datasetMtime nowMtime : Int)
    (file : List String) (failAt : Option Nat) : DbFileState :=
  if needsRebuild dbFile datasetMtime = false then
    dbFile.getD ⟨emptyDb, 0⟩
  else
    let oldDb := match dbFile with | some d => d.contents | none => emptyDb
    let initDb : Db :=
      { papersIndex := oldDb.papersIndex, doiOffsets := oldDb.doiOffsets,
        fts := [] }
    match failAt with
    | some k =>
      if k < file.length then ⟨initDb, nowMtime⟩
      else ⟨(buildScan parseLine file).db, nowMtime⟩
    | none => ⟨(buildScan parseLine file).db, nowMtime⟩

/-! ### `load_dataset` (`backend/routers/dataset.py` lines 12-39)

`papersIdx` is the listing `get_papers_index(dataset_name)` returns;
`shuffleFresh` and `shuffleAll` abstract `random.shuffle` and
`random.sample(l, k=len(l))`, each a random permutation of its input. -/

inductive LoadResult where
  | ok (queuedCount totalInFile : Nat)
  | err (status : Nat) (detail : String)
deriving Repr, DecidableEq

def load_dataset (papersIdx : List PaperInfo)
    (shuffleFresh shuffleAll : List PaperInfo → List PaperInfo)
    (st : AppStateM) (dataset : String) (prioritizeIncomplete : Bool) :
    LoadResult × AppStateM :=
  if containsS st.AVAILABLE_DATASETS dataset = false then
    (.err 404 "Dataset file not found on server.", st)
  else
    let st1 := { st with ACTIVE_FILTERS := removeA dataset st.ACTIVE_FILTERS }
    if papersIdx.length = 0 then
      (.ok 0 0, { st1 with DATASET_QUEUES := setA dataset [] st1.DATASET_QUEUES })
    else
      let incompleteQueue := papersIdx.filter
        (fun p => (lookupA p.doi st.INCOMPLETE_ANNOTATIONS).isSome)
      let newPaperQueue := papersIdx.filter
        (fun p => p.doi != "" && (lookupA p.doi st.INCOMPLETE_ANNOTATIONS).isNone &&
          !(containsS st.ANNOTATED_ITEMS p.doi))
      let finalQueue :=
        if prioritizeIncomplete then incompleteQueue ++ shuffleFresh newPaperQueue
        else shuffleAll (incompleteQueue ++ shuffleFresh newPaperQueue)
      (.ok finalQueue.length papersIdx.length,
       { st1 with DATASET_QUEUES := setA dataset finalQueue st1.DATASET_QUEUES })

/-! ### Concrete example states (inputs for the claim witnesses) -/

/-- A state where "ds" has one unlocked, unannotated, unfiltered candidate
and the connected sheet has only a header row. -/
def exampleStatePlain : AppStateM :=
  { worksheet := some [["doi", "lock_annotator", "lock_timestamp"]]
    DATASET_QUEUES := [("ds", [⟨"K1", "T1", none⟩])]
    ANNOTATED_ITEMS := []
    INCOMPLETE_ANNOTATIONS := []
    ACTIVE_FILTERS := []
    AVAILABLE_DATASETS := ["ds"] }

/-- Like `exampleStatePlain` but with an active filter whose match set is
empty. -/
def exampleStateFilterEmpty : AppStateM :=
  { exampleStatePlain with ACTIVE_FILTERS := [("ds", ⟨"q", []⟩)] }

/-- Like `exampleStatePlain` but with the only queued key already
annotated, so no unlocked/unannotated work remains. -/
def exampleStateDone : AppStateM :=
  { exampleStatePlain with ANNOTATED_ITEMS := ["K1"] }

/-- A state whose sheet holds a partially annotated row for `K1` ("ann" in
the annotator column) and whose queue holds `K1` then `K2`. -/
def exampleStateSkip : AppStateM :=
  { worksheet := some
      [["doi", "annotator", "lock_annotator", "lock_timestamp"],
       ["K1", "ann", "alice", "111"]]
    DATASET_QUEUES := [("ds", [⟨"K1", "T1", none⟩, ⟨"K2", "T2", none⟩])]
    ANNOTATED_ITEMS := []
    INCOMPLETE_ANNOTATIONS := []
    ACTIVE_FILTERS := []
    AVAILABLE_DATASETS := ["ds"] }

/-! ## Helper lemmas -/

theorem containsS_iff (l : List String) (a : String) :
    containsS l a = true ↔ a ∈ l := by
  induction l with
  | nil => simp [containsS]
  | cons b bs ih =>
    by_cases h : b = a
    · subst h; simp [containsS]
    · simp only [containsS, if_neg h, ih, List.mem_cons]
      constructor
      · exact Or.inr
      · rintro (rfl | hm)
        · exact absurd rfl h
        · exact hm

theorem lookupA_setA_self {α : Type} (k : String) (v : α)
    (m : List (String × α)) : lookupA k (setA k v m) = some v := by
  simp [setA, lookupA]

theorem lookupA_removeA_ne {α : Type} (k k' : String)
    (m : List (String × α)) (h : k' ≠ k) :
    lookupA k' (removeA k m) = lookupA k' m := by
  have hk : k ≠ k' := fun e => h e.symm
  induction m with
  | nil => rfl
  | cons p rest ih =>
    by_cases hp : p.1 = k
    · simp [removeA, lookupA, hp, hk, ih]
    · simp [removeA, lookupA, hp, ih]

theorem lookupA_removeA_self {α : Type} (k : String) (m : List (String × α)) :
    lookupA k (removeA k m) = none := by
  induction m with
  | nil => rfl
  | cons p rest ih =>
    by_cases hp : p.1 = k
    · simp [removeA, hp, ih]
    · simp [removeA, lookupA, hp, ih]

theorem lookupA_setA_ne {α : Type} (k k' : String) (v : α)
    (m : List (String × α)) (h : k' ≠ k) :
    lookupA k' (setA k v m) = lookupA k' m := by
  have : k ≠ k' := fun e => h e.symm
  simp [setA, lookupA, this, lookupA_removeA_ne k k' m h]

theorem idxOf?_getD (l : List String) (a : String) (i : Nat)
    (h : idxOf? l a = some i) : l.getD i "" = a := by
  induction l generalizing i with
  | nil => simp [idxOf?] at h
  | cons b bs ih =>
    by_cases hb : b = a
    · simp [idxOf?, hb] at h; subst h; simpa using hb
    · simp only [idxOf?, if_neg hb, Option.map_eq_some'] at h
      obtain ⟨j, hj, rfl⟩ := h
      simpa using ih j hj

/-- The scan only ever grows the unavailable set. -/
theorem containsS_scan_mono (parseTs : String → Option Int) (now : Int)
    (ann : String) (di la lt : Nat) (rows : List (List String))
    (acc : List String) (a : String) (h : containsS acc a = true) :
    containsS (rows.foldl (scanStep parseTs now ann di la lt) acc) a = true := by
  induction rows generalizing acc with
  | nil => exact h
  | cons r rs ih =>
    simp only [List.foldl_cons]
    apply ih
    unfold scanStep
    cases hc : rowMakesUnavailable parseTs now ann di la lt r with
    | none => exact h
    | some d => by_cases hd : d = a <;> simp [containsS, hd, h]

/-- A row that the scan recognises as actively locked puts its doi in the
unavailable set. -/
theorem containsS_scan_of_row (parseTs : String → Option Int) (now : Int)
    (ann : String) (di la lt : Nat) (rows : List (List String))
    (acc : List String) (r : List String) (K : String) (hr : r ∈ rows)
    (hrow : rowMakesUnavailable parseTs now ann di la lt r = some K) :
    containsS (rows.foldl (scanStep parseTs now ann di la lt) acc) K = true := by
  induction rows generalizing acc with
  | nil => cases hr
  | cons x xs ih =>
    simp only [List.foldl_cons]
    rcases List.mem_cons.mp hr with rfl | hx
    · apply containsS_scan_mono
      simp [scanStep, hrow, containsS]
    · exact ih _ hx

theorem findRowIdx_lt (p : List String → Bool) (g : List (List String))
    (j : Nat) (h : findRowIdx p g = some j) : j < g.length := by
  induction g generalizing j with
  | nil => simp [findRowIdx] at h
  | cons row rest ih =>
    by_cases hp : p row
    · simp [findRowIdx, hp] at h
      simp only [List.length_cons]
      omega
    · simp only [findRowIdx, if_neg hp, Option.map_eq_some'] at h
      obtain ⟨j', hj', rfl⟩ := h
      have := ih j' hj'
      simp only [List.length_cons]
      omega

theorem findCellRow_bounds (g : List (List String)) (col : Nat) (v : String)
    (r : Nat) (h : findCellRow g col v = some r) :
    1 ≤ r ∧ r - 1 < g.length := by
  simp only [findCellRow, Option.map_eq_some'] at h
  obtain ⟨j, hj, rfl⟩ := h
  have := findRowIdx_lt _ _ _ hj
  omega

theorem getD_setInRow_self (c : Nat) (row : List String) (v : String) :
    (setInRow row c v).getD c "" = v := by
  induction c generalizing row with
  | zero => cases row <;> rfl
  | succ n ih =>
    cases row with
    | nil => simpa [setInRow] using ih []
    | cons a rest => simpa [setInRow] using ih rest

theorem getD_setInRow_ne (c : Nat) (row : List String) (v : String)
    (c' : Nat) (h : c' ≠ c) :
    (setInRow row c v).getD c' "" = row.getD c' "" := by
  induction c generalizing row c' with
  | zero =>
    cases row with
    | nil =>
      cases c' with
      | zero => exact absurd rfl h
      | succ m => simp [setInRow]
    | cons a rest =>
      cases c' with
      | zero => exact absurd rfl h
      | succ m => simp [setInRow]
  | succ n ih =>
    cases row with
    | nil =>
      cases c' with
      | zero => simp [setInRow]
      | succ m =>
        have hm : m ≠ n := fun e => h (by rw [e])
        simpa [setInRow] using ih [] m hm
    | cons a rest =>
      cases c' with
      | zero => simp [setInRow]
      | succ m =>
        have hm : m ≠ n := fun e => h (by rw [e])
        simpa [setInRow] using ih rest m hm

theorem modifyNthL_length {α : Type} (f : α → α) (n : Nat) (l : List α) :
    (modifyNthL f n l).length = l.length := by
  induction l generalizing n with
  | nil => cases n <;> rfl
  | cons a as ih =>
    cases n with
    | zero => rfl
    | succ m => simp [modifyNthL, ih]

theorem getD_modifyNthL_self {α : Type} (f : α → α) (g : List α) (r : Nat)
    (d : α) (h : r < g.length) :
    (modifyNthL f r g).getD r d = f (g.getD r d) := by
  induction g generalizing r with
  | nil => simp at h
  | cons a as ih =>
    cases r with
    | zero => rfl
    | succ m =>
      simp only [List.length_cons] at h
      simpa [modifyNthL] using ih m (by omega)

theorem getD_modifyNthL_ne {α : Type} (f : α → α) (g : List α) (r i : Nat)
    (d : α) (h : i ≠ r) :
    (modifyNthL f r g).getD i d = g.getD i d := by
  induction g generalizing r i with
  | nil => cases r <;> rfl
  | cons a as ih =>
    cases r with
    | zero =>
      cases i with
      | zero => exact absurd rfl h
      | succ m => simp [modifyNthL]
    | succ n =>
      cases i with
      | zero => simp [modifyNthL]
      | succ m =>
        have hm : m ≠ n := fun e => h (by rw [e])
        simpa [modifyNthL] using ih n m hm

theorem length_setCell0 (g : List (List String)) (r c : Nat) (v : String) :
    (setCell0 g r c v).length = g.length :=
  modifyNthL_length _ r g

theorem cellAt_setCell0_self (g : List (List String)) (r c : Nat)
    (v : String) (h : r < g.length) : cellAt (setCell0 g r c v) r c = v := by
  unfold cellAt setCell0
  rw [getD_modifyNthL_self _ _ _ _ h]
  exact getD_setInRow_self c _ v

theorem cellAt_setCell0_same_row_ne (g : List (List String)) (r c : Nat)
    (v : String) (c' : Nat) (h : r < g.length) (hc : c' ≠ c) :
    cellAt (setCell0 g r c v) r c' = cellAt g r c' := by
  unfold cellAt setCell0
  rw [getD_modifyNthL_self _ _ _ _ h]
  exact getD_setInRow_ne c _ v c' hc

theorem getD_setCell0_ne_row (g : List (List String)) (r c : Nat)
    (v : String) (i : Nat) (hi : i ≠ r) :
    (setCell0 g r c v).getD i [] = g.getD i [] :=
  getD_modifyNthL_ne _ g r i [] hi

theorem moveToTail_perm (key : String) (q : List PaperInfo) :
    (moveToTail key q).Perm q := by
  induction q with
  | nil => exact List.Perm.refl _
  | cons p ps ih =>
    by_cases hp : p.doi = key
    · simp only [moveToTail, if_pos hp]
      exact List.perm_append_singleton p ps
    · simp only [moveToTail, if_neg hp]
      exact ih.cons p

theorem selectCandidate_ok (u : List String) (f : Option (List String))
    (pr : Bool) (q : List PaperInfo) (c : PaperInfo)
    (h : selectCandidate u f pr q = some c) : candidateOk u f pr c = true :=
  List.find?_some h

theorem selectCandidate_not_unavailable (u : List String)
    (f : Option (List String)) (pr : Bool) (q : List PaperInfo)
    (c : PaperInfo) (h : selectCandidate u f pr q = some c) :
    containsS u c.doi = false := by
  have hc := selectCandidate_ok u f pr q c h
  unfold candidateOk at hc
  cases hcu : containsS u c.doi with
  | false => rfl
  | true => rw [hcu] at hc; simp at hc

/-- Evaluation of `get_next_paper` once the early guards pass and the
ledger has a nonempty header row carrying the three needed columns. -/
theorem get_next_paper_run (parseTs : String → Option Int) (now : Int)
    (nowTsStr : String) (fetchFull : String → Option FullPaper) (lwf : Bool)
    (st : AppStateM) (dataset annotator : String) (pdfRequired : Bool)
    (skipDoi : Option String) (hdr : List String) (rest : List (List String))
    (queue : List PaperInfo) (di la lt : Nat)
    (hws : st.worksheet = some (hdr :: rest)) (hhdr : hdr ≠ [])
    (hann1 : annotator ≠ "") (hann2 : annotator ≠ "unknown")
    (hQ : lookupA dataset st.DATASET_QUEUES = some queue) (hqe : queue ≠ [])
    (hdi : idxOf? hdr "doi" = some di)
    (hla : idxOf? hdr "lock_annotator" = some la)
    (hlt : idxOf? hdr "lock_timestamp" = some lt) :
    get_next_paper parseTs now nowTsStr fetchFull lwf st dataset annotator
        pdfRequired skipDoi =
      match selectCandidate
          (unavailableDois parseTs now annotator st.ANNOTATED_ITEMS skipDoi
            di la lt rest)
          ((lookupA dataset st.ACTIVE_FILTERS).map FilterEntry.dois)
          pdfRequired queue with
      | none => .err 404 "No available papers found in the queue."
      | some cand =>
        match fetchFull cand.doi with
        | none => .err 500 "Could not retrieve full data for DOI."
        | some ful =>
          if lwf then
            .err 500 "Could not acquire lock for paper in Google Sheet."
          else
            .ok { selectedDoi := cand.doi
                  paper := ful
                  lockInfo := some { locked := true,
                                     remainingSeconds := LOCK_TIMEOUT_SECONDS }
                  existingAnn :=
                    (lookupA cand.doi st.INCOMPLETE_ANNOTATIONS).map
                      IncompleteEntry.data }
              (match findCellRow (hdr :: rest) di cand.doi with
               | some r =>
                 setCell0 (setCell0 (hdr :: rest) (r - 1) la annotator)
                   (r - 1) lt nowTsStr
               | none =>
                 (hdr :: rest) ++ [hdr.map
                   (placeholderVal cand.doi ful.title dataset annotator nowTsStr)]) := by
  simp only [get_next_paper, hws, hQ, hdi, hla, hlt, hann1, hann2, hqe,
    List.headD_cons, List.tail_cons, hhdr, if_neg, or_self, if_false,
    ite_false]

/-! ### Lemmas about the offset-index build -/

theorem lookupA_append_single_ne {α : Type} (k k2 : String) (v : α)
    (l : List (String × α)) (h : k2 ≠ k) :
    lookupA k (l ++ [(k2, v)]) = lookupA k l := by
  induction l with
  | nil => simp [lookupA, h]
  | cons p rest ih =>
    by_cases hp : p.1 = k
    · simp [lookupA, hp]
    · simp [lookupA, hp, ih]

theorem lookupA_append_single_self {α : Type} (k : String) (v : α)
    (l : List (String × α)) (h : lookupA k l = none) :
    lookupA k (l ++ [(k, v)]) = some v := by
  induction l with
  | nil => simp [lookupA]
  | cons p rest ih =>
    by_cases hp : p.1 = k
    · simp [lookupA, hp] at h
    · simp only [lookupA, hp] at h
      simp [lookupA, hp, ih h]

theorem lookupA_none_containsKeyOff (k : String) (l : List (String × Nat))
    (h : lookupA k l = none) : containsKeyOff l k = false := by
  induction l with
  | nil => rfl
  | cons p rest ih =>
    by_cases hp : p.1 = k
    · simp [lookupA, hp] at h
    · simp only [lookupA, hp] at h
      simp only [containsKeyOff, List.any_cons]
      have : (p.1 == k) = false := by simp [hp]
      simp [this]
      simpa [containsKeyOff] using ih h

theorem strLenPos (s : String) (h : s ≠ "") : 0 < s.length := by
  cases s with
  | mk data =>
    cases data with
    | nil => exact absurd rfl h
    | cons c cs => simp [String.length]

theorem readlineAt_offsetsFrom_aux (file : List String) :
    ∀ (b off : Nat) (line : String), (∀ l ∈ file, l ≠ "") →
      (off, line) ∈ offsetsFrom b file →
      b ≤ off ∧ readlineAt file (off - b) = some line := by
  induction file with
  | nil => intro b off line _ hmem; simp [offsetsFrom] at hmem
  | cons l ls ih =>
    intro b off line hne hmem
    simp only [offsetsFrom, List.mem_cons] at hmem
    rcases hmem with heq | htail
    · have h1 : off = b := congrArg Prod.fst heq
      have h2 : line = l := congrArg Prod.snd heq
      subst h1; subst h2
      refine ⟨Nat.le_refl _, ?_⟩
      simp [readlineAt]
    · have hlpos : 0 < l.length := strLenPos l (hne l (by simp))
      have hne' : ∀ x ∈ ls, x ≠ "" := fun x hx => hne x (by simp [hx])
      obtain ⟨hb, hread⟩ := ih (b + l.length) off line hne' htail
      refine ⟨by omega, ?_⟩
      have h0 : ¬ off - b = 0 := by omega
      have h1 : ¬ off - b < l.length := by omega
      simp only [readlineAt, if_neg h0, if_neg h1]
      have : off - b - l.length = off - (b + l.length) := by omega
      rw [this]
      exact hread

theorem readlineAt_offsetsFrom (file : List String) (off : Nat)
    (line : String) (hne : ∀ l ∈ file, l ≠ "")
    (hmem : (off, line) ∈ offsetsFrom 0 file) :
    readlineAt file off = some line := by
  have h := (readlineAt_offsetsFrom_aux file 0 off line hne hmem).2
  simpa using h

theorem lineKey_some (parseLine : String → Option PaperJson) (line : String)
    (key : String) (h : lineKey parseLine line = some key) :
    key ≠ "" ∧ ∃ p, parseLine line = some p ∧ p.doi = some key := by
  cases hp : parseLine line with
  | none => simp [lineKey, hp] at h
  | some p =>
    cases hd : p.doi with
    | none => simp [lineKey, hp, hd] at h
    | some d =>
      by_cases hd0 : d = ""
      · simp [lineKey, hp, hd, hd0] at h
      · simp only [lineKey, hp, hd, if_neg hd0] at h
        injection h with hk
        subst hk
        exact ⟨hd0, p, rfl, hd⟩

/-- Processing a line whose key is already indexed only increments the
duplicate counter: no table changes (`database.py` lines 133-142). -/
theorem buildStep_dup (parseLine : String → Option PaperJson)
    (st : BuildState) (ol : Nat × String) (key : String)
    (hlk : lineKey parseLine ol.2 = some key)
    (hmem : containsKeyRows st.db.papersIndex key = true) :
    buildStep parseLine st ol = { st with duplicates := st.duplicates + 1 } := by
  obtain ⟨hk0, p, hp, hd⟩ := lineKey_some parseLine ol.2 key hlk
  simp only [buildStep, hp, hd, if_neg hk0, hmem]
  rfl

/-- Processing a line with a fresh nonempty key inserts into all three
tables and bumps the insert counter. -/
theorem buildStep_insert (parseLine : String → Option PaperJson)
    (st : BuildState) (ol : Nat × String) (key : String) (p : PaperJson)
    (hp : parseLine ol.2 = some p) (hd : p.doi = some key) (hk : key ≠ "")
    (hnot : containsKeyRows st.db.papersIndex key = false) :
    buildStep parseLine st ol =
      { st with
        db :=
          { papersIndex := st.db.papersIndex ++
              [⟨key, p.title.getD "No Title", pdfUrlOf p.openAccessPdf, ol.1⟩]
            doiOffsets :=
              if containsKeyOff st.db.doiOffsets key then st.db.doiOffsets
              else st.db.doiOffsets ++ [(key, ol.1)]
            fts := st.db.fts ++
              [⟨key, p.title.getD "No Title", p.abstract.getD ""⟩] }
        count := st.count + 1 } := by
  simp only [buildStep, hp, hd, if_neg hk]
  rw [if_neg (by rw [hnot]; exact Bool.false_ne_true)]

/-- Any build step either leaves the tables unchanged or appends entries
for a fresh nonempty key. -/
theorem buildStep_cases (parseLine : String → Option PaperJson)
    (st : BuildState) (ol : Nat × String) :
    (buildStep parseLine st ol).db = st.db ∨
    ∃ d p, parseLine ol.2 = some p ∧ p.doi = some d ∧ d ≠ "" ∧
      containsKeyRows st.db.papersIndex d = false ∧
      (buildStep parseLine st ol).db.papersIndex = st.db.papersIndex ++
        [⟨d, p.title.getD "No Title", pdfUrlOf p.openAccessPdf, ol.1⟩] ∧
      ((buildStep parseLine st ol).db.doiOffsets = st.db.doiOffsets ∨
       (buildStep parseLine st ol).db.doiOffsets =
         st.db.doiOffsets ++ [(d, ol.1)]) := by
  cases hp : parseLine ol.2 with
  | none => left; simp [buildStep, hp]
  | some p =>
    cases hd : p.doi with
    | none => left; simp [buildStep, hp, hd]
    | some d =>
      by_cases hd0 : d = ""
      · left; simp [buildStep, hp, hd, hd0]
      · cases hdup : containsKeyRows st.db.papersIndex d with
        | true => left; simp [buildStep, hp, hd, hd0, hdup]
        | false =>
          right
          refine ⟨d, p, rfl, hd, hd0, hdup, ?_, ?_⟩
          · rw [buildStep_insert parseLine st ol d p hp hd hd0 hdup]
          · rw [buildStep_insert parseLine st ol d p hp hd hd0 hdup]
            cases hoff : containsKeyOff st.db.doiOffsets d with
            | true => left; simp [hoff]
            | false => right; simp [hoff]

/-- A build step that does not insert `key` preserves the key's view of
the tables. -/
theorem buildStep_preserves (parseLine : String → Option PaperJson)
    (st : BuildState) (ol : Nat × String) (key : String)
    (h : lineKey parseLine ol.2 = some key →
      containsKeyRows st.db.papersIndex key = true) :
    containsKeyRows (buildStep parseLine st ol).db.papersIndex key =
      containsKeyRows st.db.papersIndex key ∧
    (buildStep parseLine st ol).db.papersIndex.filter
      (fun row => row.doi == key) =
      st.db.papersIndex.filter (fun row => row.doi == key) ∧
    lookupA key (buildStep parseLine st ol).db.doiOffsets =
      lookupA key st.db.doiOffsets := by
  rcases buildStep_cases parseLine st ol with hdb | ⟨d, p, hp, hd, hd0, hnot, hpi, hoff⟩
  · rw [hdb]
    exact ⟨rfl, rfl, rfl⟩
  · have hlk : lineKey parseLine ol.2 = some d := by
      simp [lineKey, hp, hd, hd0]
    have hdk : d ≠ key := by
      intro he
      subst he
      rw [h hlk] at hnot
      exact Bool.noConfusion hnot
    refine ⟨?_, ?_, ?_⟩
    · rw [hpi]
      simp [containsKeyRows, List.any_append, hdk]
    · rw [hpi]
      simp [List.filter_append, hdk]
    · rcases hoff with h1 | h1
      · rw [h1]
      · rw [h1]
        exact lookupA_append_single_ne key d ol.1 st.db.doiOffsets hdk

/-- Once a key is indexed, the rest of the scan never changes its entry or
its offset. -/
theorem buildScan_preserves_present (parseLine : String → Option PaperJson)
    (ols : List (Nat × String)) (st : BuildState) (key : String)
    (hmem : containsKeyRows st.db.papersIndex key = true) :
    (ols.foldl (buildStep parseLine) st).db.papersIndex.filter
      (fun row => row.doi == key) =
      st.db.papersIndex.filter (fun row => row.doi == key) ∧
    lookupA key (ols.foldl (buildStep parseLine) st).db.doiOffsets =
      lookupA key st.db.doiOffsets := by
  induction ols generalizing st with
  | nil => exact ⟨rfl, rfl⟩
  | cons ol rest ih =>
    have hpres := buildStep_preserves parseLine st ol key (fun _ => hmem)
    have hmem' : containsKeyRows (buildStep parseLine st ol).db.papersIndex
        key = true := by rw [hpres.1]; exact hmem
    have hrest := ih (buildStep parseLine st ol) hmem'
    simp only [List.foldl_cons]
    exact ⟨hrest.1.trans hpres.2.1, hrest.2.trans hpres.2.2⟩

/-- First-wins: from a state not containing `key`, the scan of lines whose
first `key`-occurrence is `(off, line)` ends with exactly one `key` entry,
recording `off`, and the offset table points at `off`. -/
theorem buildScan_first_insert (parseLine : String → Option PaperJson)
    (ols : List (Nat × String)) (st : BuildState) (key : String) (off : Nat)
    (line : String)
    (hnot : containsKeyRows st.db.papersIndex key = false)
    (hfil : st.db.papersIndex.filter (fun row => row.doi == key) = [])
    (hoff : lookupA key st.db.doiOffsets = none)
    (hfind : ols.find? (fun ol => lineKey parseLine ol.2 == some key) =
      some (off, line)) :
    ∃ p, parseLine line = some p ∧
      (ols.foldl (buildStep parseLine) st).db.papersIndex.filter
        (fun row => row.doi == key) =
        [⟨key, p.title.getD "No Title", pdfUrlOf p.openAccessPdf, off⟩] ∧
      lookupA key (ols.foldl (buildStep parseLine) st).db.doiOffsets =
        some off := by
  induction ols generalizing st with
  | nil => simp [List.find?] at hfind
  | cons ol rest ih =>
    by_cases hol : (lineKey parseLine ol.2 == some key) = true
    · have heq : (off, line) = ol := by
        simp only [List.find?, hol] at hfind
        exact (Option.some.inj hfind).symm
      subst heq
      have hlk : lineKey parseLine line = some key := by simpa using hol
      obtain ⟨hk0, p, hp, hd⟩ := lineKey_some parseLine line key hlk
      have hins := buildStep_insert parseLine st (off, line) key p hp hd hk0 hnot
      have hoffF : containsKeyOff st.db.doiOffsets key = false :=
        lookupA_none_containsKeyOff key st.db.doiOffsets hoff
      have hmem' : containsKeyRows
          (buildStep parseLine st (off, line)).db.papersIndex key = true := by
        rw [hins]
        simp [containsKeyRows, List.any_append]
      have hfil' : (buildStep parseLine st (off, line)).db.papersIndex.filter
          (fun row => row.doi == key) =
          [⟨key, p.title.getD "No Title", pdfUrlOf p.openAccessPdf, off⟩] := by
        rw [hins]
        simp [List.filter_append, hfil]
      have hoff' : lookupA key
          (buildStep parseLine st (off, line)).db.doiOffsets = some off := by
        rw [hins]
        show lookupA key (if containsKeyOff st.db.doiOffsets key then
          st.db.doiOffsets else st.db.doiOffsets ++ [(key, off)]) = some off
        rw [if_neg (by rw [hoffF]; exact Bool.false_ne_true)]
        exact lookupA_append_single_self key off st.db.doiOffsets hoff
      have hfold := buildScan_preserves_present parseLine rest
        (buildStep parseLine st (off, line)) key hmem'
      refine ⟨p, hp, ?_, ?_⟩
      · simp only [List.foldl_cons]
        exact hfold.1.trans hfil'
      · simp only [List.foldl_cons]
        exact hfold.2.trans hoff'
    · have hlkne : lineKey parseLine ol.2 ≠ some key := by
        intro he
        exact hol (by simp [he])
      have holF : (lineKey parseLine ol.2 == some key) = false := by
        revert hol
        cases lineKey parseLine ol.2 == some key <;> simp
      simp only [List.find?, holF] at hfind
      have hpres := buildStep_preserves parseLine st ol key
        (fun he => absurd he hlkne)
      have hnot' : containsKeyRows
          (buildStep parseLine st ol).db.papersIndex key = false := by
        rw [hpres.1]; exact hnot
      have hfil' := hpres.2.1.trans hfil
      have hoff' := hpres.2.2.trans hoff
      simp only [List.foldl_cons]
      exact ih (buildStep parseLine st ol) hnot' hfil' hoff' hfind

/-! ## Claims -/

/-- C1.  Lease mutual exclusion: whenever the connected ledger holds a row
for key `K` whose lock holder (compared, as the code does, after
whitespace trimming) is `A`, whose lock timestamp parses to `t0`, and whose
lease is still active (`now - t0 < 7200`), a `get_next_paper` call by any
annotator `B ≠ A` on the same ledger never returns `K`: `K` enters the
unavailable set built by the live scan and is skipped by the queue walk. -/
theorem lease_mutual_exclusion
    (parseTs : String → Option Int) (now : Int) (nowTsStr : String)
    (fetchFull : String → Option FullPaper) (lwf : Bool) (st : AppStateM)
    (dataset A B : String) (pdfRequired : Bool) (skipDoi : Option String)
    (hdr : List String) (rest : List (List String)) (di la lt : Nat)
    (K : String) (t0 : Int) (r : List String) (resp : PaperResponse)
    (L : List (List String))
    (hpe : parseTs "" = none)
    (hws : st.worksheet = some (hdr :: rest)) (hhdr : hdr ≠ [])
    (hdi : idxOf? hdr "doi" = some di)
    (hla : idxOf? hdr "lock_annotator" = some la)
    (hlt : idxOf? hdr "lock_timestamp" = some lt)
    (hr : r ∈ rest) (hlen : r.length > max di (max la lt))
    (hK : r.getD di "" = K) (hKne : K ≠ "")
    (hA : pyStrip (r.getD la "") = A) (hAB : A ≠ B)
    (hts : parseTs (r.getD lt "") = some t0) (hact : now - t0 < 7200)
    (hres : get_next_paper parseTs now nowTsStr fetchFull lwf st dataset B
      pdfRequired skipDoi = .ok resp L) :
    resp.selectedDoi ≠ K := by
  have hrow : rowMakesUnavailable parseTs now B di la lt r = some K := by
    have hlt0 : r.getD lt "" ≠ "" := by
      intro h0
      rw [h0, hpe] at hts
      exact Option.noConfusion hts
    simp only [rowMakesUnavailable]
    rw [if_pos hlen]
    rw [if_pos ⟨by rw [hK]; exact hKne, by rw [hA]; exact hAB, hlt0⟩]
    rw [hts]
    show (if now - t0 < LOCK_TIMEOUT_SECONDS then some (r.getD di "")
      else none) = some K
    rw [if_pos (show now - t0 < LOCK_TIMEOUT_SECONDS from hact)]
    rw [hK]
  have hKmem : containsS (unavailableDois parseTs now B st.ANNOTATED_ITEMS
      skipDoi di la lt rest) K = true := by
    unfold unavailableDois
    exact containsS_scan_of_row parseTs now B di la lt rest _ r K hr hrow
  by_cases hB : B = "" ∨ B = "unknown"
  · have he : get_next_paper parseTs now nowTsStr fetchFull lwf st dataset B
        pdfRequired skipDoi = .err 400 "Annotator name must be set in Settings." := by
      simp only [get_next_paper, hws]
      rw [if_pos hB]
    rw [he] at hres
    exact absurd hres (by simp)
  · have hB' : B ≠ "" ∧ B ≠ "unknown" := by
      constructor <;> intro h <;> exact hB (by simp [h])
    cases hQ : lookupA dataset st.DATASET_QUEUES with
    | none =>
      have he : get_next_paper parseTs now nowTsStr fetchFull lwf st dataset B
          pdfRequired skipDoi = .err 404 "Dataset queue is empty or not loaded." := by
        simp only [get_next_paper, hws, hQ, hB'.1, hB'.2, or_self, ite_false]
      rw [he] at hres
      exact absurd hres (by simp)
    | some queue =>
      by_cases hqe : queue = []
      · have he : get_next_paper parseTs now nowTsStr fetchFull lwf st dataset B
            pdfRequired skipDoi = .err 404 "Dataset queue is empty or not loaded." := by
          simp only [get_next_paper, hws, hQ, hB'.1, hB'.2, or_self, ite_false,
            hqe, ite_true]
        rw [he] at hres
        exact absurd hres (by simp)
      · rw [get_next_paper_run parseTs now nowTsStr fetchFull lwf st dataset B
          pdfRequired skipDoi hdr rest queue di la lt hws hhdr hB'.1 hB'.2 hQ
          hqe hdi hla hlt] at hres
        split at hres
        next => exact absurd hres (by simp)
        next cand hsel =>
          split at hres
          next => exact absurd hres (by simp)
          next ful hf =>
            split at hres
            next => exact absurd hres (by simp)
            next =>
              injection hres with h1 h2
              rw [← h1]
              show cand.doi ≠ K
              intro hEq
              have hcontains := selectCandidate_not_unavailable _ _ _ _ _ hsel
              rw [hEq, hKmem] at hcontains
              exact Bool.noConfusion hcontains

/-- Witness for C1 at a concrete state: "alice" holds a fresh lease on
`K1`; a call by "bob" selects `K2`, not `K1`. -/
theorem lease_mutual_exclusion_witness :
    ({ selectedDoi := "K2", paper := ⟨"K2", "T"⟩,
       lockInfo := some ⟨true, 7200⟩, existingAnn := none } :
      PaperResponse).selectedDoi ≠ "K1" :=
  lease_mutual_exclusion
    (fun s => if s = "100" then some (100 : Int) else none)
    100 "ts" (fun d => some ⟨d, "T"⟩) false
    { worksheet := some [["doi", "lock_annotator", "lock_timestamp"],
        ["K1", "alice", "100"]]
      DATASET_QUEUES := [("ds", [⟨"K1", "T1", none⟩, ⟨"K2", "T2", none⟩])]
      ANNOTATED_ITEMS := []
      INCOMPLETE_ANNOTATIONS := []
      ACTIVE_FILTERS := []
      AVAILABLE_DATASETS := ["ds"] }
    "ds" "alice" "bob" false none
    ["doi", "lock_annotator", "lock_timestamp"] [["K1", "alice", "100"]]
    0 1 2 "K1" 100 ["K1", "alice", "100"]
    { selectedDoi := "K2", paper := ⟨"K2", "T"⟩,
      lockInfo := some ⟨true, 7200⟩, existingAnn := none }
    [["doi", "lock_annotator", "lock_timestamp"], ["K1", "alice", "100"],
     ["K2", "bob", "ts"]]
    (by decide) rfl (by decide) (by decide) (by decide) (by decide)
    (by decide) (by decide) (by decide) (by decide) (by decide) (by decide)
    (by decide) (by decide) (by decide)

/-- C4.  Lease expiry: a ledger row locked by someone else with timestamp
`t0` is treated as active by the selection scan exactly when
`now - t0 < LOCK_TIMEOUT_SECONDS = 7200`; in particular at
`now = t0 + 7201` the key is not in the unavailable set and the queue walk
may select it for a different annotator. -/
theorem lease_expiry_boundary
    (parseTs : String → Option Int) (now : Int) (B : String) (t0 : Int)
    (K : String) (di la lt : Nat) (row : List String) (p : PaperInfo)
    (hpe : parseTs "" = none)
    (hlen : row.length > max di (max la lt))
    (hK : row.getD di "" = K) (hKne : K ≠ "")
    (hA : pyStrip (row.getD la "") ≠ B)
    (hts : parseTs (row.getD lt "") = some t0) :
    LOCK_TIMEOUT_SECONDS = 7200 ∧
    (containsS (unavailableDois parseTs now B [] none di la lt [row]) K = true
      ↔ now - t0 < 7200) ∧
    (now = t0 + 7201 → p.doi = K →
      selectCandidate (unavailableDois parseTs now B [] none di la lt [row])
        none false [p] = some p) := by
  have hlt0 : row.getD lt "" ≠ "" := by
    intro h0
    rw [h0, hpe] at hts
    exact Option.noConfusion hts
  have hRM : rowMakesUnavailable parseTs now B di la lt row =
      if now - t0 < LOCK_TIMEOUT_SECONDS then some K else none := by
    simp only [rowMakesUnavailable]
    rw [if_pos hlen]
    rw [if_pos ⟨by rw [hK]; exact hKne, hA, hlt0⟩]
    rw [hts]
    show (if now - t0 < LOCK_TIMEOUT_SECONDS then some (row.getD di "")
      else none) = _
    rw [hK]
  have hU : unavailableDois parseTs now B [] none di la lt [row] =
      if now - t0 < (7200 : Int) then [K] else [] := by
    unfold unavailableDois scanStep
    simp only [List.foldl_cons, List.foldl_nil, hRM]
    by_cases h : now - t0 < (7200 : Int)
    · rw [if_pos (show now - t0 < LOCK_TIMEOUT_SECONDS from h), if_pos h]
    · rw [if_neg (show ¬ now - t0 < LOCK_TIMEOUT_SECONDS from h), if_neg h]
  refine ⟨rfl, ?_, ?_⟩
  · rw [hU]
    by_cases h : now - t0 < (7200 : Int)
    · simp [h, containsS]
    · simp [h, containsS]
  · intro hnow hpdoi
    have hnotact : ¬ now - t0 < (7200 : Int) := by omega
    rw [hU, if_neg hnotact]
    simp [selectCandidate, List.find?, candidateOk, containsS]

/-- Witness for C4: at 7201 seconds past the lock timestamp, the locked key
is selected for annotator "bob". -/
theorem lease_expiry_boundary_witness :
    selectCandidate
      (unavailableDois (fun s => if s = "5" then some (5 : Int) else none)
        7206 "bob" [] none 0 1 2 [["K", "alice", "5"]])
      none false [⟨"K", "T", none⟩] = some ⟨"K", "T", none⟩ :=
  (lease_expiry_boundary (fun s => if s = "5" then some (5 : Int) else none)
    7206 "bob" 5 "K" 0 1 2 ["K", "alice", "5"] ⟨"K", "T", none⟩
    (by decide) (by decide) (by decide) (by decide) (by decide)
    (by decide)).2.2 (by decide) (by decide)

/-- C2, counterexample.  In the router implementation a lease-write failure
does not return the selected record in degraded mode: the call surfaces
only a 500 error and no record at all. -/
theorem lease_write_failure_cex :
    get_next_paper (fun _ => none) 0 "ts" (fun d => some ⟨d, "T"⟩) true
        exampleStatePlain "ds" "alice" false none =
      .err 500 "Could not acquire lock for paper in Google Sheet." ∧
    ∀ resp L, get_next_paper (fun _ => none) 0 "ts" (fun d => some ⟨d, "T"⟩)
        true exampleStatePlain "ds" "alice" false none ≠ .ok resp L := by
  refine ⟨by decide, ?_⟩
  intro resp L h
  rw [show get_next_paper (fun _ => none) 0 "ts" (fun d => some ⟨d, "T"⟩) true
      exampleStatePlain "ds" "alice" false none =
      .err 500 "Could not acquire lock for paper in Google Sheet."
    from by decide] at h
  exact NextResult.noConfusion h

/-- C2, amended.  Whenever a candidate has been chosen and its full record
fetched, a failing ledger lease write makes `get_next_paper` abort with the
500 error `Could not acquire lock for paper in Google Sheet.`; the selected
record is discarded, not returned flagged-unconfirmed (that degraded mode
exists only in the legacy `backend/main.py` variant of the endpoint). -/
theorem lease_write_failure_errors
    (parseTs : String → Option Int) (now : Int) (nowTsStr : String)
    (fetchFull : String → Option FullPaper) (st : AppStateM)
    (dataset annotator : String) (pdfRequired : Bool) (skipDoi : Option String)
    (hdr : List String) (rest : List (List String)) (queue : List PaperInfo)
    (di la lt : Nat) (cand : PaperInfo) (ful : FullPaper)
    (hws : st.worksheet = some (hdr :: rest)) (hhdr : hdr ≠ [])
    (hann1 : annotator ≠ "") (hann2 : annotator ≠ "unknown")
    (hQ : lookupA dataset st.DATASET_QUEUES = some queue) (hqe : queue ≠ [])
    (hdi : idxOf? hdr "doi" = some di)
    (hla : idxOf? hdr "lock_annotator" = some la)
    (hlt : idxOf? hdr "lock_timestamp" = some lt)
    (hsel : selectCandidate
      (unavailableDois parseTs now annotator st.ANNOTATED_ITEMS skipDoi
        di la lt rest)
      ((lookupA dataset st.ACTIVE_FILTERS).map FilterEntry.dois)
      pdfRequired queue = some cand)
    (hf : fetchFull cand.doi = some ful) :
    get_next_paper parseTs now nowTsStr fetchFull true st dataset annotator
        pdfRequired skipDoi =
      .err 500 "Could not acquire lock for paper in Google Sheet." := by
  rw [get_next_paper_run parseTs now nowTsStr fetchFull true st dataset
    annotator pdfRequired skipDoi hdr rest queue di la lt hws hhdr hann1
    hann2 hQ hqe hdi hla hlt]
  simp [hsel, hf]

/-- Witness for C2's amended theorem at a concrete state. -/
theorem lease_write_failure_errors_witness :
    get_next_paper (fun _ => none) 0 "ts" (fun d => some ⟨d, "T"⟩) true
        exampleStatePlain "ds" "alice" false none =
      .err 500 "Could not acquire lock for paper in Google Sheet." :=
  lease_write_failure_errors (fun _ => none) 0 "ts" (fun d => some ⟨d, "T"⟩)
    exampleStatePlain "ds" "alice" false none
    ["doi", "lock_annotator", "lock_timestamp"] [] [⟨"K1", "T1", none⟩]
    0 1 2 ⟨"K1", "T1", none⟩ ⟨"K1", "T"⟩
    rfl (by decide) (by decide) (by decide) (by decide) (by decide)
    (by decide) (by decide) (by decide) (by decide) (by decide)

/-- C3, counterexample.  The empty-filter failure and the nothing-left
failure raise the identical 404 detail, so the failure reason does not
distinguish filter exhaustion from lock/annotation exhaustion (only the
legacy `backend/main.py` variant uses distinct messages). -/
theorem filter_reason_cex :
    get_next_paper (fun _ => none) 0 "ts" (fun d => some ⟨d, "T"⟩) false
        exampleStateFilterEmpty "ds" "alice" false none =
      .err 404 "No available papers found in the queue." ∧
    get_next_paper (fun _ => none) 0 "ts" (fun d => some ⟨d, "T"⟩) false
        exampleStateDone "ds" "alice" false none =
      .err 404 "No available papers found in the queue." :=
  ⟨by decide, by decide⟩

/-- C3, amended.  With an active filter whose match set is empty, every
`get_next_paper` call for that corpus fails with the 404 detail
`No available papers found in the queue.` regardless of what unfiltered
candidates the queue holds (no fallback to unfiltered selection); but this
is the same generic reason used when no unlocked/unannotated work remains,
so the reason does not distinguish the two cases. -/
theorem filter_exhausted_unavailable
    (parseTs : String → Option Int) (now : Int) (nowTsStr : String)
    (fetchFull : String → Option FullPaper) (lwf : Bool) (st : AppStateM)
    (dataset annotator : String) (pdfRequired : Bool) (skipDoi : Option String)
    (hdr : List String) (rest : List (List String)) (queue : List PaperInfo)
    (di la lt : Nat) (fe : FilterEntry)
    (hws : st.worksheet = some (hdr :: rest)) (hhdr : hdr ≠ [])
    (hann1 : annotator ≠ "") (hann2 : annotator ≠ "unknown")
    (hQ : lookupA dataset st.DATASET_QUEUES = some queue) (hqe : queue ≠ [])
    (hdi : idxOf? hdr "doi" = some di)
    (hla : idxOf? hdr "lock_annotator" = some la)
    (hlt : idxOf? hdr "lock_timestamp" = some lt)
    (hfe : lookupA dataset st.ACTIVE_FILTERS = some fe)
    (hdois : fe.dois = []) :
    get_next_paper parseTs now nowTsStr fetchFull lwf st dataset annotator
        pdfRequired skipDoi =
      .err 404 "No available papers found in the queue." := by
  rw [get_next_paper_run parseTs now nowTsStr fetchFull lwf st dataset
    annotator pdfRequired skipDoi hdr rest queue di la lt hws hhdr hann1
    hann2 hQ hqe hdi hla hlt]
  have hnone : selectCandidate
      (unavailableDois parseTs now annotator st.ANNOTATED_ITEMS skipDoi
        di la lt rest)
      ((lookupA dataset st.ACTIVE_FILTERS).map FilterEntry.dois)
      pdfRequired queue = none := by
    rw [hfe]
    apply List.find?_eq_none.mpr
    intro p _
    simp [candidateOk, hdois, containsS]
  rw [hnone]

/-- Witness for C3's amended theorem: the empty-matched filter blocks the
available unfiltered candidate. -/
theorem filter_exhausted_unavailable_witness :
    get_next_paper (fun _ => none) 0 "ts" (fun d => some ⟨d, "T"⟩) false
        exampleStateFilterEmpty "ds" "alice" false none =
      .err 404 "No available papers found in the queue." :=
  filter_exhausted_unavailable (fun _ => none) 0 "ts"
    (fun d => some ⟨d, "T"⟩) false exampleStateFilterEmpty "ds" "alice"
    false none ["doi", "lock_annotator", "lock_timestamp"] []
    [⟨"K1", "T1", none⟩] 0 1 2 ⟨"q", []⟩
    rfl (by decide) (by decide) (by decide) (by decide) (by decide)
    (by decide) (by decide) (by decide) (by decide) (by decide)

/-- C5.  Skip semantics: when `skip_paper` finds the key's ledger row, a
blank `annotator` cell makes it delete that row outright, a non-blank one
makes it keep the row and blank exactly the two lock cells; in both cases
the matching queue entry, if present, is moved to the tail of the corpus
queue (a permutation, so nothing is removed). -/
theorem skip_semantics (st : AppStateM) (grid : List (List String))
    (dataset key : String) (di ai la lt r : Nat)
    (hws : st.worksheet = some grid)
    (hdi : idxOf? (grid.headD []) "doi" = some di)
    (hai : idxOf? (grid.headD []) "annotator" = some ai)
    (hla : idxOf? (grid.headD []) "lock_annotator" = some la)
    (hlt : idxOf? (grid.headD []) "lock_timestamp" = some lt)
    (hfind : findCellRow grid di key = some r) :
    ((skip_paper st dataset key).1 = .ok key) ∧
    (pyStrip ((grid.getD (r - 1) []).getD ai "") = "" →
      (skip_paper st dataset key).2.worksheet =
        some (grid.eraseIdx (r - 1))) ∧
    (pyStrip ((grid.getD (r - 1) []).getD ai "") ≠ "" →
      ∃ g', (skip_paper st dataset key).2.worksheet = some g' ∧
        g'.length = grid.length ∧
        cellAt g' (r - 1) la = "" ∧ cellAt g' (r - 1) lt = "" ∧
        (∀ c, c ≠ la → c ≠ lt →
          cellAt g' (r - 1) c = cellAt grid (r - 1) c) ∧
        (∀ i, i ≠ r - 1 → g'.getD i [] = grid.getD i [])) ∧
    (∀ q, lookupA dataset st.DATASET_QUEUES = some q → q ≠ [] →
      lookupA dataset (skip_paper st dataset key).2.DATASET_QUEUES =
        some (moveToTail key q) ∧ (moveToTail key q).Perm q) := by
  have hr1 : r - 1 < grid.length := (findCellRow_bounds _ _ _ _ hfind).2
  have hlalt : la ≠ lt := by
    intro he
    have h1 := idxOf?_getD _ _ _ hla
    have h2 := idxOf?_getD _ _ _ hlt
    rw [he, h2] at h1
    exact absurd h1 (by decide)
  have hlen1 : r - 1 < (setCell0 grid (r - 1) la "").length := by
    rw [length_setCell0]
    exact hr1
  refine ⟨by simp [skip_paper, hws], ?_, ?_, ?_⟩
  · intro hblank
    simp only [skip_paper, hws, hdi, hai, hfind, hblank]
    simp
  · intro hnb
    refine ⟨setCell0 (setCell0 grid (r - 1) la "") (r - 1) lt "", ?_, ?_,
      ?_, ?_, ?_, ?_⟩
    · simp only [skip_paper, clear_lock, hws, hdi, hai, hla, hlt, hfind, hnb]
      simp
    · rw [length_setCell0, length_setCell0]
    · rw [cellAt_setCell0_same_row_ne _ _ _ _ _ hlen1 hlalt]
      exact cellAt_setCell0_self _ _ _ _ hr1
    · exact cellAt_setCell0_self _ _ _ _ hlen1
    · intro c hcla hclt
      rw [cellAt_setCell0_same_row_ne _ _ _ _ _ hlen1 hclt]
      exact cellAt_setCell0_same_row_ne _ _ _ _ _ hr1 hcla
    · intro i hi
      rw [getD_setCell0_ne_row _ _ _ _ _ hi, getD_setCell0_ne_row _ _ _ _ _ hi]
  · intro q hq hqne
    refine ⟨?_, moveToTail_perm key q⟩
    simp [skip_paper, hws, hq, hqne, lookupA_setA_self]

/-- Witness for C5: skipping `K1` moves it behind `K2` in the queue. -/
theorem skip_semantics_witness :
    lookupA "ds" ((skip_paper exampleStateSkip "ds" "K1").2).DATASET_QUEUES =
      some (moveToTail "K1" [⟨"K1", "T1", none⟩, ⟨"K2", "T2", none⟩]) ∧
    (moveToTail "K1" [⟨"K1", "T1", none⟩, ⟨"K2", "T2", none⟩]).Perm
      [⟨"K1", "T1", none⟩, ⟨"K2", "T2", none⟩] :=
  (skip_semantics exampleStateSkip
    [["doi", "annotator", "lock_annotator", "lock_timestamp"],
     ["K1", "ann", "alice", "111"]]
    "ds" "K1" 0 1 2 3 2
    rfl (by decide) (by decide) (by decide) (by decide) (by decide)).2.2.2
    [⟨"K1", "T1", none⟩, ⟨"K2", "T2", none⟩] (by decide) (by decide)

/-- C6.  Submission atomicity on error: when the ledger row write raises
(`rowWriteFails = true`, whatever the header write does), the endpoint
returns the 500 error and leaves everything else alone: the ledger's data
rows — and with them any lock cells, hence the lease — are untouched
(only the header row may have been rewritten by an earlier successful
header write), the key is not added to the completed set, the queue keeps
it, and the partial-annotation map keeps it. -/
theorem submit_error_leaves_state (hwf : Bool) (st : AppStateM)
    (s : Submission) (grid : List (List String))
    (hws : st.worksheet = some grid) :
    ((submitAnn hwf true st s).1 = .err 500 "Failed to write to Google Sheet.") ∧
    (∃ g', (submitAnn hwf true st s).2.worksheet = some g' ∧
      g'.tail = grid.tail) ∧
    ((submitAnn hwf true st s).2.DATASET_QUEUES = st.DATASET_QUEUES) ∧
    ((submitAnn hwf true st s).2.ANNOTATED_ITEMS = st.ANNOTATED_ITEMS) ∧
    ((submitAnn hwf true st s).2.INCOMPLETE_ANNOTATIONS =
      st.INCOMPLETE_ANNOTATIONS) := by
  have key : ∃ g', g'.tail = grid.tail ∧
      submitAnn hwf true st s =
        (.err 500 "Failed to write to Google Sheet.",
         { st with worksheet := some g' }) := by
    by_cases h0 : grid.headD [] = []
    · cases hwf with
      | true =>
        refine ⟨grid, rfl, ?_⟩
        simp only [submitAnn, hws]
        rw [if_pos h0, ← hws]
        rfl
      | false =>
        refine ⟨flatKeys s :: grid.tail, rfl, ?_⟩
        simp only [submitAnn, submitWrite, hws]
        rw [if_pos h0]
        rfl
    · by_cases hex :
        (flatKeys s).filter (fun h => !(containsS (grid.headD []) h)) = []
      · refine ⟨grid, rfl, ?_⟩
        simp only [submitAnn, submitWrite, hws]
        rw [if_neg h0, if_pos hex, ← hws]
        rfl
      · cases hwf with
        | true =>
          refine ⟨grid, rfl, ?_⟩
          simp only [submitAnn, hws]
          rw [if_neg h0, if_neg hex, ← hws]
          rfl
        | false =>
          refine ⟨(grid.headD [] ++ (flatKeys s).filter
            (fun h => !(containsS (grid.headD []) h))) :: grid.tail, rfl, ?_⟩
          simp only [submitAnn, submitWrite, hws]
          rw [if_neg h0, if_neg hex]
          rfl
  obtain ⟨g', hg, he⟩ := key
  rw [he]
  exact ⟨rfl, ⟨g', rfl, hg⟩, rfl, rfl, rfl⟩

/-- Witness for C6: a failing row write on a concrete state surfaces the
500 error. -/
theorem submit_error_leaves_state_witness :
    ((submitAnn false true exampleStateSkip
      ⟨"K1", "T1", "ds", "alice", [("field1", "v")]⟩).1 =
      .err 500 "Failed to write to Google Sheet.") :=
  (submit_error_leaves_state false exampleStateSkip
    ⟨"K1", "T1", "ds", "alice", [("field1", "v")]⟩
    [["doi", "annotator", "lock_annotator", "lock_timestamp"],
     ["K1", "ann", "alice", "111"]] rfl).1

/-- C7.  First-wins de-duplication and byte-exact retrieval: when the first
occurrence of nonempty key `key` among parseable lines starts at byte
`off` with raw line `line`, the build gives `key` exactly one
`papers_index` entry, whose byte offset is `off` and whose fields come
from that line's record; a step on any later occurrence of an
already-present key only increments the duplicate counter and changes no
table; and the fetch seeks the stored offset, reads the one line starting
there, and re-parses it, returning the first occurrence's record. -/
theorem index_first_wins_fetch (parseLine : String → Option PaperJson)
    (file : List String) (key : String) (off : Nat) (line : String)
    (hne : ∀ l ∈ file, l ≠ "")
    (hfo : (offsetsFrom 0 file).find?
      (fun ol => lineKey parseLine ol.2 == some key) = some (off, line)) :
    (∃ p, parseLine line = some p ∧
      (buildScan parseLine file).db.papersIndex.filter
        (fun row => row.doi == key) =
        [⟨key, p.title.getD "No Title", pdfUrlOf p.openAccessPdf, off⟩]) ∧
    (∀ (st : BuildState) (ol : Nat × String),
      lineKey parseLine ol.2 = some key →
      containsKeyRows st.db.papersIndex key = true →
      buildStep parseLine st ol =
        { st with duplicates := st.duplicates + 1 }) ∧
    get_paper_by_doi_from_file parseLine (buildScan parseLine file).db file
      key = parseLine line := by
  obtain ⟨p, hp, hfil, hoff⟩ := buildScan_first_insert parseLine
    (offsetsFrom 0 file) ⟨emptyDb, 0, 0, 0⟩ key off line rfl rfl rfl hfo
  refine ⟨⟨p, hp, hfil⟩, ?_, ?_⟩
  · intro st ol hlk hmem
    exact buildStep_dup parseLine st ol key hlk hmem
  · unfold get_paper_by_doi_from_file
    unfold buildScan
    rw [hoff]
    have hmem : (off, line) ∈ offsetsFrom 0 file :=
      List.mem_of_find?_eq_some hfo
    show (match readlineAt file off with
      | none => none
      | some l => parseLine l) = parseLine line
    rw [readlineAt_offsetsFrom file off line hne hmem]

/-- Witness for C7 on a three-line corpus whose key `k1` occurs on lines 1
and 3: the fetch returns line 1's record. -/
theorem index_first_wins_fetch_witness :
    get_paper_by_doi_from_file
      (fun l =>
        if l = "A1\n" then some ⟨some "k1", some "T1", some "ab1", .missing⟩
        else if l = "B2\n" then some ⟨some "k2", some "T2", none, .missing⟩
        else if l = "A3\n" then some ⟨some "k1", some "T3", none, .missing⟩
        else none)
      (buildScan
        (fun l =>
          if l = "A1\n" then some ⟨some "k1", some "T1", some "ab1", .missing⟩
          else if l = "B2\n" then some ⟨some "k2", some "T2", none, .missing⟩
          else if l = "A3\n" then some ⟨some "k1", some "T3", none, .missing⟩
          else none)
        ["A1\n", "B2\n", "A3\n"]).db
      ["A1\n", "B2\n", "A3\n"] "k1" =
    (fun l =>
        if l = "A1\n" then some ⟨some "k1", some "T1", some "ab1", .missing⟩
        else if l = "B2\n" then some ⟨some "k2", some "T2", none, .missing⟩
        else if l = "A3\n" then some ⟨some "k1", some "T3", none, .missing⟩
        else none) "A1\n" :=
  (index_first_wins_fetch
    (fun l =>
      if l = "A1\n" then some ⟨some "k1", some "T1", some "ab1", .missing⟩
      else if l = "B2\n" then some ⟨some "k2", some "T2", none, .missing⟩
      else if l = "A3\n" then some ⟨some "k1", some "T3", none, .missing⟩
      else none)
    ["A1\n", "B2\n", "A3\n"] "k1" 0 "A1\n"
    (by decide) (by decide)).2.2

/-- C8, counterexample.  A rebuild of a stale but nonempty index that dies
mid-scan does not leave zero entries: the rollback restores the old rows
(one entry here), so the next staleness check can deem the index valid. -/
theorem index_rollback_cex :
    (index_dataset_if_needed (fun _ => none)
        (some ⟨⟨[⟨"kOld", "T", none, 0⟩], [("kOld", 0)], []⟩, 0⟩)
        5 10 ["X\n"] (some 0)).contents.papersIndex =
      [⟨"kOld", "T", none, 0⟩] ∧
    ([⟨"kOld", "T", none, 0⟩] : List IndexRow).length ≠ 0 :=
  ⟨by decide, by decide⟩

/-- C8, amended.  An unexpected mid-scan exception rolls the transaction
back to the pre-build table contents (with the search table left empty by
the committed re-init), not necessarily to zero entries; when the prior
index was empty or absent, this does leave zero entries, and the
zero-entry state makes the staleness check force a rebuild on every later
access regardless of file times. -/
theorem index_rollback_restores (parseLine : String → Option PaperJson)
    (dbFile : Option DbFileState) (dsM nowM : Int) (file : List String)
    (k : Nat) (hreb : needsRebuild dbFile dsM = true) (hk : k < file.length) :
    (index_dataset_if_needed parseLine dbFile dsM nowM file
      (some k)).contents.papersIndex = oldPapers dbFile ∧
    (index_dataset_if_needed parseLine dbFile dsM nowM file
      (some k)).contents.doiOffsets = oldOffs dbFile ∧
    (index_dataset_if_needed parseLine dbFile dsM nowM file
      (some k)).contents.fts = [] ∧
    (oldPapers dbFile = [] → ∀ m : Int,
      needsRebuild (some (index_dataset_if_needed parseLine dbFile dsM nowM
        file (some k))) m = true) := by
  have hcond : ¬ (needsRebuild dbFile dsM = false) := by
    rw [hreb]
    decide
  have hres : index_dataset_if_needed parseLine dbFile dsM nowM file
      (some k) = ⟨⟨oldPapers dbFile, oldOffs dbFile, []⟩, nowM⟩ := by
    cases dbFile with
    | none =>
      simp [index_dataset_if_needed, needsRebuild, hk, oldPapers, oldOffs,
        emptyDb]
    | some d =>
      simp [index_dataset_if_needed, hk, oldPapers, oldOffs, hcond]
  rw [hres]
  refine ⟨rfl, rfl, rfl, ?_⟩
  intro h0 m
  simp [needsRebuild, h0]

/-- Witness for C8's amended theorem at the stale-nonempty-index input. -/
theorem index_rollback_restores_witness :
    (index_dataset_if_needed (fun _ => none)
        (some ⟨⟨[⟨"kOld", "T", none, 0⟩], [("kOld", 0)], []⟩, 0⟩)
        5 10 ["X\n"] (some 0)).contents.papersIndex =
      oldPapers (some ⟨⟨[⟨"kOld", "T", none, 0⟩], [("kOld", 0)], []⟩, 0⟩) :=
  (index_rollback_restores (fun _ => none)
    (some ⟨⟨[⟨"kOld", "T", none, 0⟩], [("kOld", 0)], []⟩, 0⟩)
    5 10 ["X\n"] 0 (by decide) (by decide)).1

/-- C9.  Queue construction: keys with a partial annotation form the
resume partition in index-listing order (a filter of the listing); keys
with neither a partial nor a completed annotation form the fresh partition,
which is passed through the fresh shuffle; completed keys appear in
neither partition; the final queue is resume ++ shuffled-fresh when
`prioritize_incomplete` is set and a joint shuffle of that concatenation
otherwise; an empty listing — or one where every key is completed — yields
an empty queue with a success result. -/
theorem queue_construction (papersIdx : List PaperInfo)
    (sF sA : List PaperInfo → List PaperInfo) (st : AppStateM) (ds : String)
    (pri : Bool) (hAvail : containsS st.AVAILABLE_DATASETS ds = true)
    (hsF : ∀ l, (sF l).Perm l) (hsA : ∀ l, (sA l).Perm l) :
    (papersIdx = [] →
      (load_dataset papersIdx sF sA st ds pri).1 = .ok 0 0 ∧
      lookupA ds ((load_dataset papersIdx sF sA st ds
        pri).2).DATASET_QUEUES = some []) ∧
    (papersIdx ≠ [] →
      (load_dataset papersIdx sF sA st ds pri).1 =
        .ok (if pri then
            papersIdx.filter
              (fun p => (lookupA p.doi st.INCOMPLETE_ANNOTATIONS).isSome) ++
            sF (papersIdx.filter (fun p => p.doi != "" &&
              (lookupA p.doi st.INCOMPLETE_ANNOTATIONS).isNone &&
              !(containsS st.ANNOTATED_ITEMS p.doi)))
          else sA (papersIdx.filter
              (fun p => (lookupA p.doi st.INCOMPLETE_ANNOTATIONS).isSome) ++
            sF (papersIdx.filter (fun p => p.doi != "" &&
              (lookupA p.doi st.INCOMPLETE_ANNOTATIONS).isNone &&
              !(containsS st.ANNOTATED_ITEMS p.doi))))).length
          papersIdx.length ∧
      lookupA ds ((load_dataset papersIdx sF sA st ds
        pri).2).DATASET_QUEUES =
        some (if pri then
            papersIdx.filter
              (fun p => (lookupA p.doi st.INCOMPLETE_ANNOTATIONS).isSome) ++
            sF (papersIdx.filter (fun p => p.doi != "" &&
              (lookupA p.doi st.INCOMPLETE_ANNOTATIONS).isNone &&
              !(containsS st.ANNOTATED_ITEMS p.doi)))
          else sA (papersIdx.filter
              (fun p => (lookupA p.doi st.INCOMPLETE_ANNOTATIONS).isSome) ++
            sF (papersIdx.filter (fun p => p.doi != "" &&
              (lookupA p.doi st.INCOMPLETE_ANNOTATIONS).isNone &&
              !(containsS st.ANNOTATED_ITEMS p.doi)))))) ∧
    (∀ p ∈ papersIdx, containsS st.ANNOTATED_ITEMS p.doi = true →
      lookupA p.doi st.INCOMPLETE_ANNOTATIONS = none →
      p ∉ papersIdx.filter
        (fun p => (lookupA p.doi st.INCOMPLETE_ANNOTATIONS).isSome) ∧
      p ∉ papersIdx.filter (fun p => p.doi != "" &&
        (lookupA p.doi st.INCOMPLETE_ANNOTATIONS).isNone &&
        !(containsS st.ANNOTATED_ITEMS p.doi))) ∧
    (papersIdx ≠ [] →
      (∀ p ∈ papersIdx, containsS st.ANNOTATED_ITEMS p.doi = true ∧
        lookupA p.doi st.INCOMPLETE_ANNOTATIONS = none) →
      (load_dataset papersIdx sF sA st ds pri).1 =
        .ok 0 papersIdx.length ∧
      lookupA ds ((load_dataset papersIdx sF sA st ds
        pri).2).DATASET_QUEUES = some []) := by
  have hA' : ¬ (containsS st.AVAILABLE_DATASETS ds = false) := by
    rw [hAvail]
    decide
  refine ⟨?_, ?_, ?_, ?_⟩
  · intro h0
    subst h0
    simp only [load_dataset]
    rw [if_neg hA']
    exact ⟨rfl, by simp [lookupA_setA_self]⟩
  · intro hne
    have hlen : ¬ (papersIdx.length = 0) := by
      intro h
      exact hne (List.length_eq_zero.mp h)
    simp only [load_dataset]
    rw [if_neg hA', if_neg hlen]
    exact ⟨rfl, by simp [lookupA_setA_self]⟩
  · intro p hp hann hinc
    constructor
    · intro hmem
      have := (List.mem_filter.mp hmem).2
      rw [hinc] at this
      simp at this
    · intro hmem
      have := (List.mem_filter.mp hmem).2
      simp [hann] at this
  · intro hne hall
    have hres : papersIdx.filter
        (fun p => (lookupA p.doi st.INCOMPLETE_ANNOTATIONS).isSome) = [] := by
      apply List.filter_eq_nil_iff.mpr
      intro p hp
      rw [(hall p hp).2]
      simp
    have hfre : papersIdx.filter (fun p => p.doi != "" &&
        (lookupA p.doi st.INCOMPLETE_ANNOTATIONS).isNone &&
        !(containsS st.ANNOTATED_ITEMS p.doi)) = [] := by
      apply List.filter_eq_nil_iff.mpr
      intro p hp
      simp [(hall p hp).1]
    have hlen : ¬ (papersIdx.length = 0) := by
      intro h
      exact hne (List.length_eq_zero.mp h)
    have hsF0 : sF ([] : List PaperInfo) = [] := (hsF []).eq_nil
    have hsA0 : sA ([] : List PaperInfo) = [] := (hsA []).eq_nil
    simp only [load_dataset]
    rw [if_neg hA', if_neg hlen]
    rw [hres, hfre, hsF0]
    cases pri with
    | true => exact ⟨rfl, by simp [lookupA_setA_self]⟩
    | false =>
      simp only [List.nil_append, hsA0]
      exact ⟨rfl, by simp [lookupA_setA_self]⟩

/-- Witness for C9 at an empty listing: success with an empty queue. -/
theorem queue_construction_witness :
    (load_dataset [] id id exampleStatePlain "ds" true).1 = .ok 0 0 ∧
    lookupA "ds" ((load_dataset [] id id exampleStatePlain "ds"
      true).2).DATASET_QUEUES = some [] :=
  (queue_construction [] id id exampleStatePlain "ds" true (by decide)
    (fun l => List.Perm.refl l) (fun l => List.Perm.refl l)).1 rfl

/-- C10.  Loading (or reloading) an available corpus removes any cached
filter for that corpus — in both the empty-listing and the normal path —
while the cached filters of every other corpus are unchanged, so
subsequent selection for the loaded corpus runs unfiltered until a new
filter is set. -/
theorem load_clears_filter (papersIdx : List PaperInfo)
    (sF sA : List PaperInfo → List PaperInfo) (st : AppStateM) (ds : String)
    (pri : Bool) (hAvail : containsS st.AVAILABLE_DATASETS ds = true) :
    lookupA ds ((load_dataset papersIdx sF sA st ds
      pri).2).ACTIVE_FILTERS = none ∧
    ∀ d, d ≠ ds → lookupA d ((load_dataset papersIdx sF sA st ds
      pri).2).ACTIVE_FILTERS = lookupA d st.ACTIVE_FILTERS := by
  have hA' : ¬ (containsS st.AVAILABLE_DATASETS ds = false) := by
    rw [hAvail]
    decide
  have hAF : ((load_dataset papersIdx sF sA st ds pri).2).ACTIVE_FILTERS =
      removeA ds st.ACTIVE_FILTERS := by
    simp only [load_dataset]
    rw [if_neg hA']
    by_cases h0 : papersIdx.length = 0
    · rw [if_pos h0]
    · rw [if_neg h0]
  rw [hAF]
  exact ⟨lookupA_removeA_self ds st.ACTIVE_FILTERS,
    fun d hd => lookupA_removeA_ne ds d st.ACTIVE_FILTERS hd⟩

/-- Witness for C10: loading clears the empty-match filter cached for
"ds". -/
theorem load_clears_filter_witness :
    lookupA "ds" ((load_dataset [⟨"K1", "T1", none⟩] id id
      exampleStateFilterEmpty "ds" true).2).ACTIVE_FILTERS = none :=
  (load_clears_filter [⟨"K1", "T1", none⟩] id id exampleStateFilterEmpty
    "ds" true (by decide)).1

end Scribe
